import Mathlib

/-!
Verification of the subtask/timer consistency model of this repository
(`TaskDetailsModal.tsx`, `SubtaskTimer.tsx`) against its specification.

The embedding is shallow: each handler of the React components becomes a pure
Lean function from its inputs (current component state, the identifiers the
browser would generate, and the outcome of the remote call) to the state it
leaves behind, the remote writes it issues, and the ordered list of local
effects it performs.  JavaScript numbers are modelled exactly: small integer
arithmetic (counts, millisecond timestamps) is exact in binary64 for every
realistically reachable magnitude and is embedded as `Nat`/`Int`, while the
progress computation `Math.round((completed / total) * 100)` genuinely
depends on binary64 rounding (it differs from exact rational rounding
already at 23 of 40 subtasks), so it is embedded through an exact model of
IEEE-754 binary64 round-to-nearest-even, below.
-/

/-! ### An exact model of IEEE-754 binary64 rounding

A nonnegative double is represented exactly as a dyadic rational
`Dyadic.mk m e`, of value `m * 2 ^ e` (`Dyadic.val`).  `f64ofFrac a b` is
the binary64 double nearest to the exact fraction `a / b` (round to nearest,
ties to even significand): a JavaScript division of exactly representable
integers is precisely that, and a JavaScript multiplication of a double by
`100` is `f64ofFrac` of the exact product.  The model covers the whole
finite nonnegative range including subnormals (unit in the last place
clamped at `2 ^ (-1074)`); overflow to infinity is not modelled because
every value computed here lies in `[0, 128)`.  All arithmetic is on `Nat`
and `Int`, so every concrete instance evaluates by `decide`. -/

/-- Fuel-driven floor of the base-2 logarithm of a natural number
(`log2fuel fuel n` is exact whenever `n` has at most `fuel` bits). -/
def log2fuel : Nat → Nat → Nat
  | 0, _ => 0
  | fuel + 1, n => if n < 2 then 0 else log2fuel fuel (n / 2) + 1

/-- Fuel-driven search for the least `k` with `b ≤ a * 2 ^ k`
(exact whenever that `k` is at most the fuel). -/
def negExpFuel : Nat → Nat → Nat → Nat
  | 0, _, _ => 0
  | fuel + 1, a, b => if b ≤ a then 0 else negExpFuel fuel (2 * a) b + 1

/-- Floor of the base-2 logarithm of the positive fraction `a / b`.  The fuel
of 1200 bits covers the binary64 range on both sides; below `2 ^ (-1200)`
the value is approximate, which is harmless because such inputs round to
zero under the subnormal clamp of `f64ofFrac`. -/
def fracLog2 (a b : Nat) : ℤ :=
  if b ≤ a then (log2fuel 1200 (a / b) : ℤ) else -(negExpFuel 1200 a b : ℤ)

/-- Round the fraction `a / b` to the nearest integer, ties to even. -/
def rneFrac (a b : Nat) : Nat :=
  let n := a / b
  let r := a % b
  if 2 * r < b then n
  else if b < 2 * r then n + 1
  else if n % 2 = 0 then n else n + 1

/-- A dyadic rational `m * 2 ^ e`, the exact value of a nonnegative double. -/
structure Dyadic where
  m : Nat
  e : ℤ
deriving DecidableEq, Repr

/-- The exact rational value of a dyadic number. -/
def Dyadic.val (d : Dyadic) : ℚ := (d.m : ℚ) * (2 : ℚ) ^ d.e

/-- The binary64 double nearest to `a / b` (round to nearest, ties to even):
the unit in the last place is `2 ^ ulp` with `ulp = ⌊log₂ (a/b)⌋ - 52`,
clamped at `2 ^ (-1074)` for subnormals, and the significand is `a / b`
rescaled by `2 ^ (-ulp)` and rounded to the nearest integer, ties to even.
(When rounding overflows into the next binade the result is still the
correctly rounded double, since it is representable at the coarser scale.) -/
def f64ofFrac (a b : Nat) : Dyadic :=
  if a = 0 then ⟨0, 0⟩
  else
    let ulp : ℤ := max (fracLog2 a b - 52) (-1074)
    if 0 ≤ ulp then ⟨rneFrac a (b * 2 ^ ulp.toNat), ulp⟩
    else ⟨rneFrac (a * 2 ^ (-ulp).toNat) b, ulp⟩

/-- Binary64 multiplication of the double `d` by the exact constant `100`:
round the exact product to the nearest double. -/
def f64mul100 (d : Dyadic) : Dyadic :=
  if 0 ≤ d.e then f64ofFrac (d.m * 100 * 2 ^ d.e.toNat) 1
  else f64ofFrac (d.m * 100) (2 ^ (-d.e).toNat)

/-- `Math.round` on a nonnegative double: the nearest integer, halves toward
`+∞`, i.e. `⌊m * 2 ^ e + 1/2⌋` computed exactly. -/
def dyadicMathRound (d : Dyadic) : Nat :=
  if 0 ≤ d.e then d.m * 2 ^ d.e.toNat
  else (2 * d.m + 2 ^ (-d.e).toNat) / 2 ^ ((-d.e).toNat + 1)

/-! ### Data model (`Subtask`, `TaskDetailsModal.tsx`) -/

/-- A subtask row as held in the component state: `{ id, title, is_completed }`. -/
structure Subtask where
  id : String
  title : String
  is_completed : Bool
deriving DecidableEq, Repr

/-- `items.filter(t => t.is_completed).length`. -/
def completedCount (items : List Subtask) : Nat :=
  (items.filter fun t => t.is_completed).length

/-- The value `Math.round((c / t) * 100)` as JavaScript computes it: divide
in binary64, multiply by 100 in binary64, then round to nearest integer. -/
def progressOfCounts (c t : Nat) : Nat :=
  dyadicMathRound (f64mul100 (f64ofFrac c t))

/-- `calculateProgress` (TaskDetailsModal.tsx:72-79): `0` for an empty list,
otherwise `Math.round((completed / items.length) * 100)` computed in
binary64, exactly as JavaScript evaluates it. -/
def calculateProgress (items : List Subtask) : Nat :=
  if items.length = 0 then 0
  else progressOfCounts (completedCount items) items.length

/-! ### Progress: agreement with exact rounding below 40 subtasks -/

/-- Exact half-up rounding of `100 * c / t` as a natural-number formula. -/
def exactProgress (c t : Nat) : Nat := (200 * c + t) / (2 * t)

/-- For totals below 40, binary64 progress agrees with exact rational
half-up rounding (verified exhaustively); 23 of 40 is the first divergence. -/
theorem progressOfCounts_eq_exact_of_lt :
    ∀ t < 40, ∀ c ≤ t, 0 < t → progressOfCounts c t = exactProgress c t := by
  decide

/-- The integer formula `(200c + t) / (2t)` is exactly Mathlib's `round` of
the rational `100 * c / t`. -/
theorem exactProgress_eq_round (c t : Nat) (ht : 0 < t) :
    (exactProgress c t : ℤ) = round ((100 * c : ℚ) / t) := by
  have ht' : ((t : ℚ)) ≠ 0 := by positivity
  have h1 : (100 * c : ℚ) / t + 1 / 2 = (((200 * c + t : ℕ) : ℤ) : ℚ) / ((2 * t : ℕ) : ℚ) := by
    push_cast
    field_simp
    ring
  rw [round_eq, h1, Rat.floor_intCast_div_natCast]
  rw [exactProgress]
  rw [Int.ofNat_ediv]

/-- A list of 40 subtasks of which 23 are completed: the first point where
binary64 evaluation of `Math.round((c/t)*100)` diverges from exact rounding
(`(23/40)*100` evaluates to `57.49999999999999`, so the code yields 57 while
`round(57.5) = 58`). -/
def fortyList : List Subtask :=
  List.replicate 23 ⟨"a", "x", true⟩ ++ List.replicate 17 ⟨"b", "y", false⟩

/-- C1, counterexample: on a 40-element list with 23 completed subtasks the
code computes 57, not `round (100 * 23 / 40) = 58`. -/
theorem claim_c1_cex :
    ¬ ((calculateProgress fortyList : ℤ) =
        if fortyList.length = 0 then 0
        else round ((100 * (completedCount fortyList : ℚ)) / (fortyList.length : ℚ))) := by
  have h1 : calculateProgress fortyList = 57 := by decide
  have h2 : completedCount fortyList = 23 := by decide
  have h3 : fortyList.length = 40 := by decide
  intro h
  rw [h1, h2, h3] at h
  rw [show ((100 : ℚ) * (23 : ℕ)) / ((40 : ℕ) : ℚ) = (100 * (23 : ℕ) : ℚ) / ((40 : ℕ) : ℚ)
        from rfl, ← exactProgress_eq_round 23 40 (by norm_num)] at h
  norm_num [exactProgress] at h

/-- C1 (amended): for every subtask list the derived Progress is
`Math.round((completed/total)*100)` evaluated in binary64; this agrees with
exact rounding `round(100*completed/total)` for all lists of fewer than 40
subtasks (and is 0 for the empty list), but can differ on larger lists
(first at 23 of 40 completed, where the code yields 57 instead of 58). -/
theorem claim_c1 (items : List Subtask) (hlen : items.length < 40) :
    (calculateProgress items : ℤ) =
      if items.length = 0 then 0
      else round ((100 * (completedCount items : ℚ)) / (items.length : ℚ)) := by
  by_cases h0 : items.length = 0
  · simp [calculateProgress, h0]
  · have hpos : 0 < items.length := Nat.pos_of_ne_zero h0
    have hc : completedCount items ≤ items.length := List.length_filter_le _ _
    rw [calculateProgress, if_neg h0, if_neg h0]
    rw [progressOfCounts_eq_exact_of_lt _ hlen _ hc hpos]
    rw [exactProgress_eq_round _ _ hpos]

/-- Witness for C1 at a concrete two-element list with one completed subtask. -/
theorem claim_c1_witness :
    (calculateProgress [⟨"a", "x", true⟩, ⟨"b", "y", false⟩] : ℤ) =
      if ([⟨"a", "x", true⟩, ⟨"b", "y", false⟩] : List Subtask).length = 0 then 0
      else round ((100 * (completedCount [⟨"a", "x", true⟩, ⟨"b", "y", false⟩] : ℚ)) /
        (([⟨"a", "x", true⟩, ⟨"b", "y", false⟩] : List Subtask).length : ℚ)) :=
  claim_c1 [⟨"a", "x", true⟩, ⟨"b", "y", false⟩] (by decide)

/-! ### Progress bounds: the binary64 value never exceeds 100 -/

theorem log2fuel_pow_le (fuel : Nat) : ∀ n, 1 ≤ n → 2 ^ log2fuel fuel n ≤ n := by
  induction fuel with
  | zero => intro n h; simpa [log2fuel] using h
  | succ fuel ih =>
    intro n h
    rw [log2fuel]
    split
    · simpa using h
    · rename_i h2
      have h1 : 1 ≤ n / 2 := (Nat.one_le_div_iff (by norm_num)).mpr (by omega)
      have h3 := ih (n / 2) h1
      have h4 : 2 * 2 ^ log2fuel fuel (n / 2) ≤ 2 * (n / 2) := by omega
      calc 2 ^ (log2fuel fuel (n / 2) + 1) = 2 * 2 ^ log2fuel fuel (n / 2) := by ring
        _ ≤ 2 * (n / 2) := h4
        _ ≤ n := by omega

theorem rneFrac_le (a b : Nat) (hb : 0 < b) :
    (rneFrac a b : ℚ) ≤ (a : ℚ) / b + 1 / 2 := by
  have hb' : (0 : ℚ) < b := by exact_mod_cast hb
  have key : (a : ℚ) / b = ((a / b : ℕ) : ℚ) + ((a % b : ℕ) : ℚ) / b := by
    field_simp
    exact_mod_cast (Nat.div_add_mod' a b).symm
  rw [rneFrac, key]
  have hr0 : (0 : ℚ) ≤ ((a % b : ℕ) : ℚ) / b := by positivity
  split
  · linarith
  · split
    · rename_i hc1 hc2
      have hc2' : (b : ℚ) < 2 * ((a % b : ℕ) : ℚ) := by exact_mod_cast hc2
      have : (1 : ℚ) / 2 ≤ ((a % b : ℕ) : ℚ) / b := by
        rw [div_le_div_iff₀ (by norm_num) hb']
        linarith
      push_cast
      linarith
    · rename_i hc1 hc2
      have htie : 2 * (a % b) = b := by omega
      have hx : (0 : ℚ) < ((a % b : ℕ) : ℚ) := by
        exact_mod_cast (by omega : 0 < a % b)
      have hbq : ((b : ℕ) : ℚ) = 2 * ((a % b : ℕ) : ℚ) := by exact_mod_cast htie.symm
      have htie' : ((a % b : ℕ) : ℚ) / b = 1 / 2 := by
        rw [hbq, div_eq_div_iff (by positivity) (by norm_num : (2 : ℚ) ≠ 0)]
        ring
      rw [htie']
      split
      · linarith
      · push_cast
        linarith

theorem fracLog2_le_six (a b : Nat) (hb : 0 < b) (h : a < 128 * b) :
    fracLog2 a b ≤ 6 := by
  rw [fracLog2]
  split
  · rename_i hba
    have h1 : 1 ≤ a / b := (Nat.one_le_div_iff hb).mpr hba
    have h2 := log2fuel_pow_le 1200 (a / b) h1
    have h4 : a / b < 128 := (Nat.div_lt_iff_lt_mul hb).mpr (by omega)
    have h6 : log2fuel 1200 (a / b) < 7 := by
      by_contra hcon
      push_neg at hcon
      have h7 : (2 : ℕ) ^ 7 ≤ 2 ^ log2fuel 1200 (a / b) :=
        Nat.pow_le_pow_right (by norm_num) hcon
      omega
    omega
  · omega

theorem Dyadic.val_nonneg (d : Dyadic) : 0 ≤ d.val := by
  rw [Dyadic.val]
  positivity

theorem f64ofFrac_val_le (a b : Nat) (hb : 0 < b) (h : a < 128 * b) :
    (f64ofFrac a b).val ≤ (a : ℚ) / b + 1 / 2 ^ 47 := by
  have hb' : (0 : ℚ) < b := by exact_mod_cast hb
  rw [f64ofFrac]
  split
  · rename_i ha
    rw [Dyadic.val]
    simp
    positivity
  · rename_i ha
    have h6 := fracLog2_le_six a b hb h
    have hulp : max (fracLog2 a b - 52) (-1074) ≤ -46 :=
      max_le (by omega) (by norm_num)
    rw [if_neg (by omega)]
    rw [Dyadic.val]
    set u : ℤ := max (fracLog2 a b - 52) (-1074) with hu
    set k : ℕ := (-u).toNat with hk
    have hk46 : 46 ≤ k := by omega
    have hpow : ((2 : ℚ) ^ u) = ((2 : ℚ) ^ k)⁻¹ := by
      rw [show u = -(k : ℤ) by omega, zpow_neg, zpow_natCast]
    rw [hpow]
    have hkpos : (0 : ℚ) < 2 ^ k := by positivity
    have hr := rneFrac_le (a * 2 ^ k) b hb
    have hcast : ((a * 2 ^ k : ℕ) : ℚ) = (a : ℚ) * 2 ^ k := by push_cast; ring
    rw [hcast] at hr
    have h2 : ((2 : ℚ) ^ k)⁻¹ ≤ ((2 : ℚ) ^ 46)⁻¹ := by
      apply inv_anti₀ (by positivity)
      exact pow_le_pow_right₀ (by norm_num) hk46
    calc (rneFrac (a * 2 ^ k) b : ℚ) * ((2 : ℚ) ^ k)⁻¹
        ≤ ((a : ℚ) * 2 ^ k / b + 1 / 2) * ((2 : ℚ) ^ k)⁻¹ :=
          mul_le_mul_of_nonneg_right hr (by positivity)
      _ = (a : ℚ) / b + (1 / 2) * ((2 : ℚ) ^ k)⁻¹ := by
          field_simp
          ring
      _ ≤ (a : ℚ) / b + 1 / 2 ^ 47 := by
          have h3 : (1 / 2 : ℚ) * ((2 : ℚ) ^ k)⁻¹ ≤ (1 / 2) * ((2 : ℚ) ^ 46)⁻¹ :=
            mul_le_mul_of_nonneg_left h2 (by norm_num)
          have h4 : (1 / 2 : ℚ) * ((2 : ℚ) ^ 46)⁻¹ = 1 / 2 ^ 47 := by norm_num
          linarith

theorem f64mul100_val_le (d : Dyadic) (h : d.val * 100 < 128) :
    (f64mul100 d).val ≤ d.val * 100 + 1 / 2 ^ 47 := by
  rw [f64mul100]
  split
  · rename_i he
    have key : ((d.m * 100 * 2 ^ d.e.toNat : ℕ) : ℚ) = d.val * 100 := by
      push_cast
      rw [Dyadic.val, ← zpow_natCast (2 : ℚ) d.e.toNat, Int.toNat_of_nonneg he]
      ring
    have hlt : d.m * 100 * 2 ^ d.e.toNat < 128 * 1 := by
      have h1 : ((d.m * 100 * 2 ^ d.e.toNat : ℕ) : ℚ) < ((128 * 1 : ℕ) : ℚ) := by
        rw [key]
        push_cast
        linarith
      exact_mod_cast h1
    have hb := f64ofFrac_val_le (d.m * 100 * 2 ^ d.e.toNat) 1 one_pos hlt
    calc (f64ofFrac (d.m * 100 * 2 ^ d.e.toNat) 1).val
        ≤ ((d.m * 100 * 2 ^ d.e.toNat : ℕ) : ℚ) / (1 : ℕ) + 1 / 2 ^ 47 := hb
      _ = d.val * 100 + 1 / 2 ^ 47 := by rw [key]; norm_num
  · rename_i he
    set k : ℕ := (-d.e).toNat with hk
    have hkpos : (0 : ℚ) < (2 : ℚ) ^ k := by positivity
    have hepow : (2 : ℚ) ^ d.e = ((2 : ℚ) ^ k)⁻¹ := by
      rw [show d.e = -(k : ℤ) by omega, zpow_neg, zpow_natCast]
    have key : ((d.m * 100 : ℕ) : ℚ) = d.val * 100 * (2 : ℚ) ^ k := by
      push_cast
      rw [Dyadic.val, hepow]
      field_simp
    have hlt : d.m * 100 < 128 * 2 ^ k := by
      have h1 : ((d.m * 100 : ℕ) : ℚ) < ((128 * 2 ^ k : ℕ) : ℚ) := by
        rw [key]
        push_cast
        nlinarith
      exact_mod_cast h1
    have hb := f64ofFrac_val_le (d.m * 100) (2 ^ k) (by positivity) hlt
    calc (f64ofFrac (d.m * 100) (2 ^ k)).val
        ≤ ((d.m * 100 : ℕ) : ℚ) / ((2 ^ k : ℕ) : ℚ) + 1 / 2 ^ 47 := hb
      _ = d.val * 100 + 1 / 2 ^ 47 := by
          rw [key]
          push_cast
          field_simp

theorem dyadicMathRound_le (d : Dyadic) : (dyadicMathRound d : ℚ) ≤ d.val + 1 / 2 := by
  rw [dyadicMathRound]
  split
  · rename_i he
    have key : ((d.m * 2 ^ d.e.toNat : ℕ) : ℚ) = d.val := by
      push_cast
      rw [Dyadic.val, ← zpow_natCast (2 : ℚ) d.e.toNat, Int.toNat_of_nonneg he]
    rw [key]
    linarith
  · rename_i he
    set k : ℕ := (-d.e).toNat with hk
    have hkpos : (0 : ℚ) < (2 : ℚ) ^ k := by positivity
    have hepow : (2 : ℚ) ^ d.e = ((2 : ℚ) ^ k)⁻¹ := by
      rw [show d.e = -(k : ℤ) by omega, zpow_neg, zpow_natCast]
    have hcast : ((2 * d.m + 2 ^ k : ℕ) : ℚ) / ((2 ^ (k + 1) : ℕ) : ℚ) = d.val + 1 / 2 := by
      push_cast
      rw [Dyadic.val, hepow]
      rw [pow_succ]
      field_simp
      ring
    calc (((2 * d.m + 2 ^ k) / 2 ^ (k + 1) : ℕ) : ℚ)
        ≤ ((2 * d.m + 2 ^ k : ℕ) : ℚ) / ((2 ^ (k + 1) : ℕ) : ℚ) := Nat.cast_div_le
      _ = d.val + 1 / 2 := hcast

/-- The binary64 progress value never exceeds 100 when `c ≤ t`. -/
theorem progressOfCounts_le_100 (c t : Nat) (hct : c ≤ t) (ht : 0 < t) :
    progressOfCounts c t ≤ 100 := by
  have ht' : (0 : ℚ) < t := by exact_mod_cast ht
  have hct' : (c : ℚ) ≤ t := by exact_mod_cast hct
  have h1 : c < 128 * t := by omega
  have hd1 := f64ofFrac_val_le c t ht h1
  have hd1n := Dyadic.val_nonneg (f64ofFrac c t)
  have hq : (c : ℚ) / t ≤ 1 := by
    rw [div_le_one ht']
    exact hct'
  have hub : (f64ofFrac c t).val ≤ 1 + 1 / 2 ^ 47 := by linarith
  have h2 : (f64ofFrac c t).val * 100 < 128 := by nlinarith
  have hd2 := f64mul100_val_le _ h2
  have h3 := dyadicMathRound_le (f64mul100 (f64ofFrac c t))
  have h4 : ((progressOfCounts c t : ℕ) : ℚ) < 101 := by
    rw [progressOfCounts]
    nlinarith
  have h5 : progressOfCounts c t < 101 := by exact_mod_cast h4
  omega

/-! ### Status inference (`checkAutoStatusUpdate`, TaskDetailsModal.tsx:83-113)

The source tests each status label against one of three case-insensitive
regular expressions: `/to\s?do|backlog|pending|open|not started/i`,
`/done|complete|resolved|closed|finish/i`, `/progress|review|doing|working/i`.
Each alternative is a plain substring match; `\s?` is one optional
whitespace character.  Case-insensitivity is modelled by ASCII lowercasing
(all pattern letters are ASCII) and `\s` by the JavaScript whitespace
characters that fit in one `Char`. -/

/-- Substring test after ASCII lowercasing, modelling `/pat/i.test(s)` for a
literal pattern `pat`. -/
def strContainsCI (s pat : String) : Bool :=
  ((s.toList.map Char.toLower).tails).any fun suf =>
    (pat.toList.map Char.toLower).isPrefixOf suf

/-- One-character whitespace class for the regex `\s`. -/
def jsWhitespace : List Char := [' ', '\t', '\n', '\r', '\x0b', '\x0c', '\u00A0']

/-- `/to\s?do|backlog|pending|open|not started/i.test(label)`. -/
def matchesNotStarted (label : String) : Bool :=
  strContainsCI label "todo"
    || (jsWhitespace.any fun c => strContainsCI label (("to".push c) ++ "do"))
    || strContainsCI label "backlog"
    || strContainsCI label "pending"
    || strContainsCI label "open"
    || strContainsCI label "not started"

/-- `/done|complete|resolved|closed|finish/i.test(label)`. -/
def matchesDone (label : String) : Bool :=
  strContainsCI label "done"
    || strContainsCI label "complete"
    || strContainsCI label "resolved"
    || strContainsCI label "closed"
    || strContainsCI label "finish"

/-- `/progress|review|doing|working/i.test(label)`. -/
def matchesInProgress (label : String) : Bool :=
  strContainsCI label "progress"
    || strContainsCI label "review"
    || strContainsCI label "doing"
    || strContainsCI label "working"

/-- A workflow status (`task_statuses` row): an id and a free-text label.
Ids are database primary keys, modelled as `Nat`; the store never yields
id 0 (the JavaScript-falsy value), which the code's truthiness test
`if (targetStatusId && ...)` silently relies on. -/
structure Status where
  id : Nat
  label : String
deriving DecidableEq, Repr

/-- `checkAutoStatusUpdate` (TaskDetailsModal.tsx:83-113) as a pure function:
given the loaded statuses, the task's current `status_id` and the candidate
subtask list, it returns `some id` exactly when the code would issue
`handleUpdateStatus id`, and `none` when it issues nothing.  The source's
truthiness test `if (targetStatusId && task.status_id !== targetStatusId)`
is modelled by `tid ≠ 0` together with the inequality. -/
def checkAutoStatusUpdate (statuses : List Status) (curStatusId : Option Nat)
    (items : List Subtask) : Option Nat :=
  if 0 < items.length then
    match (if completedCount items = 0 then
        (statuses.find? fun s => matchesNotStarted s.label).map Status.id
      else if completedCount items = items.length then
        (statuses.find? fun s => matchesDone s.label).map Status.id
      else
        (statuses.find? fun s => matchesInProgress s.label).map Status.id) with
    | some tid => if tid ≠ 0 ∧ curStatusId ≠ some tid then some tid else none
    | none => none
  else none

/-- Completion classes of the specification (§4.2). -/
inductive CompletionClass where
  | notStarted
  | inProgress
  | allDone
deriving DecidableEq, Repr

/-- Specification classification: `completed == 0` is not-started,
`completed == total` is done, anything else is in-progress. -/
def classifySpec (completed total : Nat) : CompletionClass :=
  if completed = 0 then .notStarted
  else if completed = total then .allDone
  else .inProgress

/-- The pattern set of each class (the code's matchers). -/
def classMatcher : CompletionClass → String → Bool
  | .notStarted => matchesNotStarted
  | .allDone => matchesDone
  | .inProgress => matchesInProgress

/-- Status inference as the specification words it: no action on an empty
list; otherwise classify, take the first status whose label matches the
class's pattern set, skip silently when none matches, and push the matched
id exactly when it differs from the current status id. -/
def statusInferenceSpec (statuses : List Status) (curStatusId : Option Nat)
    (items : List Subtask) : Option Nat :=
  if items.length = 0 then none
  else
    match (statuses.find? fun s =>
        classMatcher (classifySpec (completedCount items) items.length) s.label).map Status.id with
    | none => none
    | some tid => if curStatusId ≠ some tid then some tid else none

theorem inference_push_eq (statuses : List Status) (cur : Option Nat) (p : Status → Bool)
    (hids : ∀ s ∈ statuses, s.id ≠ 0) :
    (match (statuses.find? p).map Status.id with
      | some tid => if tid ≠ 0 ∧ cur ≠ some tid then some tid else none
      | none => none) =
    (match (statuses.find? p).map Status.id with
      | none => none
      | some tid => if cur ≠ some tid then some tid else none) := by
  cases hfind : statuses.find? p with
  | none => simp
  | some s =>
    have hmem : s ∈ statuses := List.mem_of_find?_eq_some hfind
    have hid : s.id ≠ 0 := hids s hmem
    simp [hid]

/-- `checkAutoStatusUpdate` coincides with the specification's description of
status inference whenever no status carries the JavaScript-falsy id 0. -/
theorem checkAuto_eq_spec (statuses : List Status) (cur : Option Nat)
    (items : List Subtask) (hids : ∀ s ∈ statuses, s.id ≠ 0) :
    checkAutoStatusUpdate statuses cur items = statusInferenceSpec statuses cur items := by
  rw [checkAutoStatusUpdate, statusInferenceSpec]
  by_cases h0 : items.length = 0
  · simp [h0]
  · have hpos : 0 < items.length := Nat.pos_of_ne_zero h0
    rw [if_pos hpos, if_neg h0]
    by_cases hc0 : completedCount items = 0
    · have hcls : classifySpec (completedCount items) items.length = .notStarted := by
        rw [classifySpec, if_pos hc0]
      rw [if_pos hc0, hcls]
      exact inference_push_eq statuses cur _ hids
    · by_cases hct : completedCount items = items.length
      · have hcls : classifySpec (completedCount items) items.length = .allDone := by
          rw [classifySpec, if_neg hc0, if_pos hct]
        rw [if_neg hc0, if_pos hct, hcls]
        exact inference_push_eq statuses cur _ hids
      · have hcls : classifySpec (completedCount items) items.length = .inProgress := by
          rw [classifySpec, if_neg hc0, if_neg hct]
        rw [if_neg hc0, if_neg hct, hcls]
        exact inference_push_eq statuses cur _ hids

/-- The concrete status set of the specification's test property 5. -/
def statuses123 : List Status := [⟨1, "To Do"⟩, ⟨2, "In Progress"⟩, ⟨3, "Done"⟩]

/-- Three subtasks of which the first `k` are completed. -/
def threeOf (k : Nat) : List Subtask :=
  [⟨"s1", "a", decide (1 ≤ k)⟩, ⟨"s2", "b", decide (2 ≤ k)⟩, ⟨"s3", "c", decide (3 ≤ k)⟩]

/-- C2: status inference issues no update on an empty list; otherwise it
classifies 0 completed as not-started, all completed as done, anything else
as in-progress, picks the first status matching that class's pattern set,
skips silently when none matches, and pushes the matched id exactly when it
differs from the current status (given that no store-provided status id is
the JavaScript-falsy 0).  Concretely, with statuses To Do/In Progress/Done
and 3 subtasks: 0, 2, 3 completed infer ids 1, 2, 3, and no push happens
when the current status already equals the inferred one. -/
theorem claim_c2 :
    (∀ (statuses : List Status) (cur : Option Nat) (items : List Subtask),
        (∀ s ∈ statuses, s.id ≠ 0) →
        checkAutoStatusUpdate statuses cur items = statusInferenceSpec statuses cur items)
    ∧ checkAutoStatusUpdate statuses123 (some 9) (threeOf 0) = some 1
    ∧ checkAutoStatusUpdate statuses123 (some 9) (threeOf 2) = some 2
    ∧ checkAutoStatusUpdate statuses123 (some 9) (threeOf 3) = some 3
    ∧ checkAutoStatusUpdate statuses123 (some 1) (threeOf 0) = none
    ∧ checkAutoStatusUpdate statuses123 (some 2) (threeOf 2) = none
    ∧ checkAutoStatusUpdate statuses123 (some 3) (threeOf 3) = none := by
  exact ⟨checkAuto_eq_spec, by decide, by decide, by decide, by decide, by decide, by decide⟩

/-- Witness for C2: the universally quantified refinement applied to the
concrete status set and the 2-of-3 list, with its hypothesis discharged. -/
theorem claim_c2_witness :
    checkAutoStatusUpdate statuses123 (some 9) (threeOf 2) =
      statusInferenceSpec statuses123 (some 9) (threeOf 2) :=
  claim_c2.1 statuses123 (some 9) (threeOf 2) (by decide)

/-! ### Subtask store controller (TaskDetailsModal.tsx:115-204, 55-70)

Each handler is modelled sequentially: the remote call's outcome is a
parameter, and the reconciliation callback operates on the state left by the
optimistic update, exactly as the source's `setSubtasks(prev => ...)` does
when no other mutation intervened.  Each result also records the ordered
list of local effects (`events`), which makes the temporal claims about
when inference runs expressible. -/

/-- The component state the handlers touch: the subtask list and the derived
progress value (a natural number, so it is an integer and nonnegative). -/
structure ModalState where
  subtasks : List Subtask
  progress : Nat
deriving DecidableEq, Repr

/-- Local effects of a handler, in program order. -/
inductive Event where
  | setList (l : List Subtask)
  | recomputeProgress (l : List Subtask)
  | remoteProcessed (success : Bool)
  | inference (l : List Subtask)
deriving DecidableEq, Repr

/-- What a handler leaves behind: the final component state, the status
update it pushes (if any), and its ordered local effects. -/
structure HandlerResult where
  state : ModalState
  statusPush : Option Nat
  events : List Event
deriving DecidableEq, Repr

/-- Success reconciliation of add: `prev.map(t => t.id === tempId ? data : t)`. -/
def confirmAdd (l : List Subtask) (tempId : String) (data : Subtask) : List Subtask :=
  l.map fun t => if t.id = tempId then data else t

/-- Failure rollback of add: `prev.filter(t => t.id !== tempId)`. -/
def rollbackAdd (l : List Subtask) (tempId : String) : List Subtask :=
  l.filter fun t => t.id ≠ tempId

/-- The toggle mutation `map(t => t.id === id ? { ...t, is_completed: b } : t)`
(used optimistically with the requested flag and, on failure, as the
rollback with the negated flag). -/
def applyToggle (l : List Subtask) (id : String) (b : Bool) : List Subtask :=
  l.map fun t => if t.id = id then { t with is_completed := b } else t

/-- The optimistic text edit `map(t => t.id === id ? { ...t, title: text } : t)`. -/
def applyUpdateText (l : List Subtask) (id : String) (text : String) : List Subtask :=
  l.map fun t => if t.id = id then { t with title := text } else t

/-- Failure rollback of delete: re-append the remembered entity, if one was
found at call time (`setSubtasks(prev => [...prev, deletedTask])`). -/
def rollbackDelete (l : List Subtask) (deleted : Option Subtask) : List Subtask :=
  match deleted with
  | some d => l ++ [d]
  | none => l

/-- Outcome of the remote insert behind `handleAddSubtask`. -/
inductive AddOutcome where
  | ok (confirmed : Subtask)
  | fail
deriving DecidableEq, Repr

/-- Whether the remote insert succeeded. -/
def AddOutcome.isOk : AddOutcome → Bool
  | .ok _ => true
  | .fail => false

/-- `handleAddSubtask` (TaskDetailsModal.tsx:115-141): append a temporary
entry and recompute progress optimistically; on success replace the
temporary id by the server row, on failure filter the temporary id out
(progress is not recomputed again); after the awaited remote call, run
status inference on the optimistic snapshot `updatedList`. -/
def handleAddSubtask (statuses : List Status) (cur : Option Nat) (st : ModalState)
    (tempId : String) (text : String) (outcome : AddOutcome) : HandlerResult :=
  let newSubtask : Subtask := ⟨tempId, text, false⟩
  let updatedList := st.subtasks ++ [newSubtask]
  let afterRemote : List Subtask :=
    match outcome with
    | .ok data => confirmAdd updatedList tempId data
    | .fail => rollbackAdd updatedList tempId
  { state := { subtasks := afterRemote, progress := calculateProgress updatedList }
    statusPush := checkAutoStatusUpdate statuses cur updatedList
    events := [.setList updatedList, .recomputeProgress updatedList,
               .remoteProcessed outcome.isOk, .inference updatedList] }

/-- `handleToggleSubtask` (TaskDetailsModal.tsx:143-162): set the flag and
recompute progress optimistically, run inference on the optimistic list
before the remote call; on failure set the entry's flag to the *negation of
the requested value* (`is_completed: !isCompleted`), recomputing nothing. -/
def handleToggleSubtask (statuses : List Status) (cur : Option Nat) (st : ModalState)
    (id : String) (isCompleted : Bool) (remoteOk : Bool) : HandlerResult :=
  let updatedList := applyToggle st.subtasks id isCompleted
  let finalList := if remoteOk then updatedList else applyToggle updatedList id (!isCompleted)
  { state := { subtasks := finalList, progress := calculateProgress updatedList }
    statusPush := checkAutoStatusUpdate statuses cur updatedList
    events := [.setList updatedList, .recomputeProgress updatedList,
               .inference updatedList, .remoteProcessed remoteOk] }

/-- `handleDeleteSubtask` (TaskDetailsModal.tsx:164-186): remember the entry,
filter it out and recompute progress optimistically, run inference; on
failure re-append the remembered entry at the end, recomputing nothing. -/
def handleDeleteSubtask (statuses : List Status) (cur : Option Nat) (st : ModalState)
    (id : String) (remoteOk : Bool) : HandlerResult :=
  let deletedTask := st.subtasks.find? fun t => t.id = id
  let updatedList := st.subtasks.filter fun t => t.id ≠ id
  let finalList := if remoteOk then updatedList else rollbackDelete updatedList deletedTask
  { state := { subtasks := finalList, progress := calculateProgress updatedList }
    statusPush := checkAutoStatusUpdate statuses cur updatedList
    events := [.setList updatedList, .recomputeProgress updatedList,
               .inference updatedList, .remoteProcessed remoteOk] }

/-- `handleUpdateSubtaskText` (TaskDetailsModal.tsx:188-204): optimistic text
edit with no rollback, no progress recomputation and no inference. -/
def handleUpdateSubtaskText (st : ModalState) (id : String) (text : String)
    (remoteOk : Bool) : HandlerResult :=
  let updatedList := applyUpdateText st.subtasks id text
  { state := { subtasks := updatedList, progress := st.progress }
    statusPush := none
    events := [.setList updatedList, .remoteProcessed remoteOk] }

/-- `loadSubtasks` (TaskDetailsModal.tsx:55-70): replace the list wholesale
and recompute progress; on a failed fetch leave the list empty and progress
at 0. -/
def loadSubtasks (outcome : Option (List Subtask)) : ModalState :=
  match outcome with
  | some data => { subtasks := data, progress := calculateProgress data }
  | none => { subtasks := [], progress := 0 }

/-! ### Rollback properties of the store controller -/

theorem rollbackAdd_of_fresh (l : List Subtask) (tempId : String) (new : Subtask)
    (hnew : new.id = tempId) (h : tempId ∉ l.map Subtask.id) :
    rollbackAdd (l ++ [new]) tempId = l := by
  rw [rollbackAdd, List.filter_append]
  have h1 : l.filter (fun t => t.id ≠ tempId) = l := by
    rw [List.filter_eq_self]
    intro t ht
    have hne : t.id ≠ tempId := by
      intro he
      exact h (he ▸ List.mem_map_of_mem Subtask.id ht)
    simpa using hne
  have h2 : [new].filter (fun t => t.id ≠ tempId) = [] := by
    simp [hnew]
  rw [h1, h2, List.append_nil]

theorem applyToggle_applyToggle (l : List Subtask) (id : String) (b c : Bool) :
    applyToggle (applyToggle l id b) id c = applyToggle l id c := by
  rw [applyToggle, applyToggle, applyToggle, List.map_map]
  apply List.map_congr_left
  intro t _
  by_cases hid : t.id = id
  · simp [hid]
  · simp [hid]

theorem applyToggle_eq_self (l : List Subtask) (id : String) (c : Bool)
    (h : ∀ t ∈ l, t.id = id → t.is_completed = c) :
    applyToggle l id c = l := by
  rw [applyToggle]
  conv_rhs => rw [← List.map_id l]
  apply List.map_congr_left
  intro t ht
  by_cases hid : t.id = id
  · have := h t ht hid
    cases t
    simp_all
  · simp [hid]

/-- A one-subtask state whose single entry is completed, with the progress
the code would have computed for it. -/
def oneDoneState : ModalState := { subtasks := [⟨"a", "x", true⟩], progress := 100 }

/-- C5, counterexample: after a failed `add("x")` on a one-completed-subtask
state the list is restored but Progress is not: it stays at 50 (the value
computed from the optimistic two-element list), not the pre-call 100.  The
pre-call state is consistent: its progress is exactly what the code computes
for its list. -/
theorem claim_c5_cex :
    calculateProgress oneDoneState.subtasks = oneDoneState.progress ∧
      ¬ ((handleAddSubtask [] none oneDoneState "tmp" "x" .fail).state = oneDoneState) := by
  constructor
  · decide
  · intro h
    have h1 : (handleAddSubtask [] none oneDoneState "tmp" "x" .fail).state.progress = 50 := by
      decide
    rw [h] at h1
    exact absurd h1 (by decide)

/-- C5 (amended): when `add(text)`'s remote create fails, the temporary
entry is removed, so the subtask list is identical to its pre-call state
(the temporary id being fresh); but Progress is *not* recomputed after the
rollback — it keeps the value computed from the optimistic list that still
contained the temporary entry. -/
theorem claim_c5 (statuses : List Status) (cur : Option Nat) (st : ModalState)
    (tempId : String) (text : String) (h : tempId ∉ st.subtasks.map Subtask.id) :
    (handleAddSubtask statuses cur st tempId text .fail).state.subtasks = st.subtasks
    ∧ (handleAddSubtask statuses cur st tempId text .fail).state.progress =
        calculateProgress (st.subtasks ++ [⟨tempId, text, false⟩]) := by
  refine ⟨?_, rfl⟩
  show rollbackAdd (st.subtasks ++ [(⟨tempId, text, false⟩ : Subtask)]) tempId = st.subtasks
  exact rollbackAdd_of_fresh st.subtasks tempId ⟨tempId, text, false⟩ rfl h

/-- Witness for C5 at the concrete one-subtask state. -/
theorem claim_c5_witness :
    (handleAddSubtask [] none oneDoneState "tmp" "x" .fail).state.subtasks =
        oneDoneState.subtasks
    ∧ (handleAddSubtask [] none oneDoneState "tmp" "x" .fail).state.progress =
        calculateProgress (oneDoneState.subtasks ++ [⟨"tmp", "x", false⟩]) :=
  claim_c5 [] none oneDoneState "tmp" "x" (by decide)

/-- C6, counterexample: on the one-completed-subtask state, a failed
`toggleCompletion("a", true)` (requesting the value the entry already has)
leaves `is_completed = false`, not the pre-call value `true`: the rollback
writes the negation of the requested value, not the remembered pre-call
value. -/
theorem claim_c6_cex :
    ¬ (((handleToggleSubtask [] none oneDoneState "a" true false).state.subtasks.find?
          fun t => t.id = "a").map Subtask.is_completed =
        ((oneDoneState.subtasks.find? fun t => t.id = "a").map Subtask.is_completed)) := by
  decide

/-- C6 (amended): when `toggleCompletion(id, b)`'s remote update fails, the
rollback sets the entry's flag to `!b` — which equals the pre-call value
exactly when the requested value differed from it (as in every UI-initiated
toggle).  Under that proviso the whole list returns to its pre-call state,
and after the rollback nothing is re-run: Progress keeps the value computed
from the optimistic list, the single inference ran on the optimistic list,
and the rollback is the last effect of the handler. -/
theorem claim_c6 (statuses : List Status) (cur : Option Nat) (st : ModalState)
    (id : String) (b : Bool) (h : ∀ t ∈ st.subtasks, t.id = id → t.is_completed = !b) :
    (handleToggleSubtask statuses cur st id b false).state.subtasks = st.subtasks
    ∧ (handleToggleSubtask statuses cur st id b false).state.progress =
        calculateProgress (applyToggle st.subtasks id b)
    ∧ (handleToggleSubtask statuses cur st id b false).statusPush =
        checkAutoStatusUpdate statuses cur (applyToggle st.subtasks id b)
    ∧ (handleToggleSubtask statuses cur st id b false).events =
        [.setList (applyToggle st.subtasks id b),
         .recomputeProgress (applyToggle st.subtasks id b),
         .inference (applyToggle st.subtasks id b), .remoteProcessed false] := by
  refine ⟨?_, rfl, rfl, rfl⟩
  show (if false = true then applyToggle st.subtasks id b
      else applyToggle (applyToggle st.subtasks id b) id (!b)) = st.subtasks
  rw [if_neg (by simp)]
  rw [applyToggle_applyToggle]
  exact applyToggle_eq_self st.subtasks id (!b) h

/-- Witness for C6: a failed toggle to `false` on the one-completed-subtask
state (requested value differs from the stored one) fully reverts. -/
theorem claim_c6_witness :
    (handleToggleSubtask [] none oneDoneState "a" false false).state.subtasks =
        oneDoneState.subtasks
    ∧ (handleToggleSubtask [] none oneDoneState "a" false false).state.progress =
        calculateProgress (applyToggle oneDoneState.subtasks "a" false)
    ∧ (handleToggleSubtask [] none oneDoneState "a" false false).statusPush =
        checkAutoStatusUpdate [] none (applyToggle oneDoneState.subtasks "a" false)
    ∧ (handleToggleSubtask [] none oneDoneState "a" false false).events =
        [.setList (applyToggle oneDoneState.subtasks "a" false),
         .recomputeProgress (applyToggle oneDoneState.subtasks "a" false),
         .inference (applyToggle oneDoneState.subtasks "a" false), .remoteProcessed false] :=
  claim_c6 [] none oneDoneState "a" false (by decide)

/-! ### Ordering of inference relative to the remote result (add path) -/

/-- Recognizes an inference effect. -/
def eventIsInference : Event → Bool
  | .inference _ => true
  | _ => false

/-- Recognizes the handling of the awaited remote result. -/
def eventIsRemoteProcessed : Event → Bool
  | .remoteProcessed _ => true
  | _ => false

/-- The first inference effect precedes the first handling of a remote
result in the given effect list. -/
def inferenceBeforeRemote (evs : List Event) : Prop :=
  evs.findIdx eventIsInference < evs.findIdx eventIsRemoteProcessed

/-- C8, counterexample: in a concrete `add` invocation the inference effect
does not precede the processing of the remote result — the source calls
`checkAutoStatusUpdate` after the `try/catch` around the awaited insert. -/
theorem claim_c8_cex :
    ¬ inferenceBeforeRemote
        (handleAddSubtask [] none oneDoneState "tmp" "x" (.ok ⟨"srv", "x", false⟩)).events := by
  rw [inferenceBeforeRemote]
  decide

/-- C8 (amended): every `add(text)` invocation evaluates status inference on
the post-optimistic-update list (the snapshot `updatedList` that includes
the temporary entry), but the inference call runs *after* the remote
confirmation or rejection has been processed, not before it: the handler's
effect order is optimistic set, progress recompute, remote result, then
inference on the optimistic snapshot. -/
theorem claim_c8 (statuses : List Status) (cur : Option Nat) (st : ModalState)
    (tempId : String) (text : String) (outcome : AddOutcome) :
    (handleAddSubtask statuses cur st tempId text outcome).events =
      [.setList (st.subtasks ++ [⟨tempId, text, false⟩]),
       .recomputeProgress (st.subtasks ++ [⟨tempId, text, false⟩]),
       .remoteProcessed outcome.isOk,
       .inference (st.subtasks ++ [⟨tempId, text, false⟩])]
    ∧ (handleAddSubtask statuses cur st tempId text outcome).statusPush =
        checkAutoStatusUpdate statuses cur (st.subtasks ++ [⟨tempId, text, false⟩])
    ∧ ¬ inferenceBeforeRemote (handleAddSubtask statuses cur st tempId text outcome).events := by
  refine ⟨rfl, rfl, ?_⟩
  rw [inferenceBeforeRemote]
  simp [handleAddSubtask, List.findIdx, List.findIdx.go, eventIsInference, eventIsRemoteProcessed]

/-- C9: every reconciliation or mutation step applied with a subtask id that
is absent from the list it reaches is a no-op on that list: the toggle
mutation and its rollback, the add confirmation, the add rollback, the text
edit, and the delete rollback when no entry was remembered. -/
theorem claim_c9 (l : List Subtask) (id : String) (b : Bool) (data : Subtask)
    (text : String) (h : id ∉ l.map Subtask.id) :
    applyToggle l id b = l
    ∧ confirmAdd l id data = l
    ∧ rollbackAdd l id = l
    ∧ applyUpdateText l id text = l
    ∧ rollbackDelete l none = l
    ∧ l.find? (fun t => t.id = id) = none := by
  have hne : ∀ t ∈ l, t.id ≠ id := by
    intro t ht he
    exact h (he ▸ List.mem_map_of_mem Subtask.id ht)
  refine ⟨?_, ?_, ?_, ?_, rfl, ?_⟩
  · rw [applyToggle]
    conv_rhs => rw [← List.map_id l]
    apply List.map_congr_left
    intro t ht
    simp [hne t ht]
  · rw [confirmAdd]
    conv_rhs => rw [← List.map_id l]
    apply List.map_congr_left
    intro t ht
    simp [hne t ht]
  · rw [rollbackAdd, List.filter_eq_self]
    intro t ht
    simpa using hne t ht
  · rw [applyUpdateText]
    conv_rhs => rw [← List.map_id l]
    apply List.map_congr_left
    intro t ht
    simp [hne t ht]
  · rw [List.find?_eq_none]
    intro t ht
    simpa using hne t ht

/-- Witness for C9 on a concrete two-element list and an absent id. -/
theorem claim_c9_witness :
    applyToggle [⟨"a", "x", true⟩, ⟨"b", "y", false⟩] "gone" true =
        [⟨"a", "x", true⟩, ⟨"b", "y", false⟩]
    ∧ confirmAdd [⟨"a", "x", true⟩, ⟨"b", "y", false⟩] "gone" ⟨"srv", "z", false⟩ =
        [⟨"a", "x", true⟩, ⟨"b", "y", false⟩]
    ∧ rollbackAdd [⟨"a", "x", true⟩, ⟨"b", "y", false⟩] "gone" =
        [⟨"a", "x", true⟩, ⟨"b", "y", false⟩]
    ∧ applyUpdateText [⟨"a", "x", true⟩, ⟨"b", "y", false⟩] "gone" "w" =
        [⟨"a", "x", true⟩, ⟨"b", "y", false⟩]
    ∧ rollbackDelete [⟨"a", "x", true⟩, ⟨"b", "y", false⟩] none =
        [⟨"a", "x", true⟩, ⟨"b", "y", false⟩]
    ∧ ([⟨"a", "x", true⟩, ⟨"b", "y", false⟩] : List Subtask).find?
        (fun t => t.id = "gone") = none :=
  claim_c9 [⟨"a", "x", true⟩, ⟨"b", "y", false⟩] "gone" true ⟨"srv", "z", false⟩ "w" (by decide)

/-- Every progress value the code computes from a list is at most 100. -/
theorem calculateProgress_le_100 (items : List Subtask) : calculateProgress items ≤ 100 := by
  rw [calculateProgress]
  by_cases h0 : items.length = 0
  · simp [h0]
  · rw [if_neg h0]
    exact progressOfCounts_le_100 _ _ (List.length_filter_le _ _) (Nat.pos_of_ne_zero h0)

/-- C10: after every operation that recomputes Progress — load (both the
data and the failure path), add, toggle and delete, on any outcome — the
Progress value is a natural number (hence an integer ≥ 0) at most 100. -/
theorem claim_c10 :
    (∀ items : List Subtask, calculateProgress items ≤ 100)
    ∧ (∀ outcome, (loadSubtasks outcome).progress ≤ 100)
    ∧ (∀ statuses cur st tempId text outcome,
        (handleAddSubtask statuses cur st tempId text outcome).state.progress ≤ 100)
    ∧ (∀ statuses cur st id b ok,
        (handleToggleSubtask statuses cur st id b ok).state.progress ≤ 100)
    ∧ (∀ statuses cur st id ok,
        (handleDeleteSubtask statuses cur st id ok).state.progress ≤ 100) := by
  refine ⟨calculateProgress_le_100, ?_, ?_, ?_, ?_⟩
  · intro outcome
    cases outcome with
    | some data => exact calculateProgress_le_100 data
    | none => exact Nat.zero_le _
  · intro statuses cur st tempId text outcome
    exact calculateProgress_le_100 _
  · intro statuses cur st id b ok
    exact calculateProgress_le_100 _
  · intro statuses cur st id ok
    exact calculateProgress_le_100 _

/-! ### Timer guard (`SubtaskTimer.tsx`)

Timestamps are epoch milliseconds.  The source computes durations as
`Math.floor((end - start) / 1000)` on exact-integer millisecond timestamps;
for every realistic epoch value (below 2^43 ms the binary64 quotient floors
to the same integer as exact division, and real timestamps are near 1.7·10^12)
this is natural-number division by 1000, which is how it is embedded. -/

/-- A `subtask_time_logs` row.  `end_time` is `none` while the timer runs;
`duration_seconds` is populated only on stop. -/
structure TimeLogEntry where
  id : String
  task_id : String
  user_id : String
  subtask_name : String
  start_time : Nat
  end_time : Option Nat
  duration_seconds : Option Nat
deriving DecidableEq, Repr

/-- The locally tracked running timer (`activeTimer` state). -/
structure ActiveTimer where
  id : String
  subtaskName : String
  startTime : Nat
deriving DecidableEq, Repr

/-- The component's timer state: the tracked open entry, if any, and the
displayed elapsed seconds. -/
structure TimerGuardState where
  activeTimer : Option ActiveTimer
  elapsedSeconds : Nat
deriving DecidableEq, Repr

/-- The store-side query behind `loadActiveTimer`: the open entry for this
(task, user), of which the partial unique index
`idx_unique_active_timer_per_task_user` (db/fix_timer_collision.sql) allows
at most one. -/
def findOpenTimeLog (store : List TimeLogEntry) (taskId userId : String) :
    Option TimeLogEntry :=
  store.find? fun e => e.task_id = taskId ∧ e.user_id = userId ∧ e.end_time = none

/-- Whether the store already holds an open entry for this (task, user) —
the condition under which the store's unique index rejects an insert with
Postgres error 23505. -/
def hasOpenEntry (store : List TimeLogEntry) (taskId userId : String) : Bool :=
  (findOpenTimeLog store taskId userId).isSome

/-- The store-side effect of `closeTimeLog`: set `end_time` and
`duration_seconds` on the row with the given id. -/
def closeTimeLog (store : List TimeLogEntry) (entryId : String) (endMs durSec : Nat) :
    List TimeLogEntry :=
  store.map fun e =>
    if e.id = entryId then { e with end_time := some endMs, duration_seconds := some durSec }
    else e

/-- `loadActiveTimer` (SubtaskTimer.tsx:73-96): query the open entry for this
(task, user) and adopt it as the running state; when none exists, leave the
guard state untouched (the source only sets state inside `if (data)`). -/
def loadActiveTimer (g : TimerGuardState) (store : List TimeLogEntry)
    (taskId userId : String) (nowMs : Nat) : TimerGuardState :=
  match findOpenTimeLog store taskId userId with
  | some e =>
      { activeTimer := some ⟨e.id, e.subtask_name, e.start_time⟩,
        elapsedSeconds := (nowMs - e.start_time) / 1000 }
  | none => g

/-- `getTotalTimeForSubtask` (SubtaskTimer.tsx:179-183): sum of
`duration_seconds` over the logs whose `subtask_name` equals the given
title and whose `duration_seconds` is truthy (non-null and nonzero);
`(log.duration_seconds || 0)` supplies the summand. -/
def getTotalTimeForSubtask (timeLogs : List TimeLogEntry) (subtaskName : String) : Nat :=
  ((timeLogs.filter fun log =>
      log.subtask_name = subtaskName ∧ log.duration_seconds.getD 0 ≠ 0).map
    fun log => log.duration_seconds.getD 0).sum

/-- The specification's description of the same total: the sum of
`duration_seconds` over all *closed* entries with the matching name. -/
def closedTimeForSubtask (timeLogs : List TimeLogEntry) (subtaskName : String) : Nat :=
  ((timeLogs.filter fun log =>
      log.subtask_name = subtaskName ∧ log.end_time ≠ none).map
    fun log => log.duration_seconds.getD 0).sum

/-- C7: for every subtask title, the displayed total equals the sum of
`duration_seconds` over all closed entries whose `subtask_name` equals that
title — a name-based join with no reference to subtask ids — provided the
store lifecycle invariant holds (an open entry has no `duration_seconds`
yet).  Open entries contribute nothing. -/
theorem claim_c7 (timeLogs : List TimeLogEntry) (subtaskName : String)
    (hlife : ∀ log ∈ timeLogs, log.end_time = none → log.duration_seconds = none) :
    getTotalTimeForSubtask timeLogs subtaskName = closedTimeForSubtask timeLogs subtaskName := by
  induction timeLogs with
  | nil => rfl
  | cons e rest ih =>
    have he := hlife e (List.mem_cons_self e rest)
    have hrest : ∀ log ∈ rest, log.end_time = none → log.duration_seconds = none :=
      fun log hm => hlife log (List.mem_cons_of_mem e hm)
    have ihr := ih hrest
    rw [getTotalTimeForSubtask, closedTimeForSubtask]
    rw [List.filter_cons, List.filter_cons]
    by_cases hname : e.subtask_name = subtaskName
    · by_cases hend : e.end_time = none
      · have hdur : e.duration_seconds = none := he hend
        simp only [hname, hend, hdur]
        simpa [getTotalTimeForSubtask, closedTimeForSubtask] using ihr
      · by_cases hd0 : e.duration_seconds.getD 0 = 0
        · simp only [hname, hend, hd0]
          simp only [decide_eq_true_eq]
          rw [if_neg (by simp [hd0]), if_pos (by simp [hname, hend])]
          simp only [List.map_cons, List.sum_cons, hd0]
          simpa [getTotalTimeForSubtask, closedTimeForSubtask] using ihr
        · rw [if_pos (by simp [hname, hd0]), if_pos (by simp [hname, hend])]
          simp only [List.map_cons, List.sum_cons]
          rw [show ((rest.filter fun log =>
              log.subtask_name = subtaskName ∧ log.duration_seconds.getD 0 ≠ 0).map
                fun log => log.duration_seconds.getD 0).sum =
              getTotalTimeForSubtask rest subtaskName from rfl]
          rw [show ((rest.filter fun log =>
              log.subtask_name = subtaskName ∧ log.end_time ≠ none).map
                fun log => log.duration_seconds.getD 0).sum =
              closedTimeForSubtask rest subtaskName from rfl]
          rw [ihr]
    · rw [if_neg (by simp [hname]), if_neg (by simp [hname])]
      simpa [getTotalTimeForSubtask, closedTimeForSubtask] using ihr

/-- Witness for C7: a store with one closed "Design" entry (65 s), one open
"Design" entry and one closed entry of another name totals 65 for
"Design" on both the code's and the specification's computation. -/
theorem claim_c7_witness :
    (∀ log ∈ [⟨"e1", "T", "U", "Design", 0, some 65000, some 65⟩,
        ⟨"e2", "T", "U", "Design", 70000, none, none⟩,
        ⟨"e3", "T", "U", "Review", 0, some 9000, some 9⟩],
      TimeLogEntry.end_time log = none → TimeLogEntry.duration_seconds log = none)
    ∧ getTotalTimeForSubtask [⟨"e1", "T", "U", "Design", 0, some 65000, some 65⟩,
        ⟨"e2", "T", "U", "Design", 70000, none, none⟩,
        ⟨"e3", "T", "U", "Review", 0, some 9000, some 9⟩] "Design" =
      closedTimeForSubtask [⟨"e1", "T", "U", "Design", 0, some 65000, some 65⟩,
        ⟨"e2", "T", "U", "Design", 70000, none, none⟩,
        ⟨"e3", "T", "U", "Review", 0, some 9000, some 9⟩] "Design" :=
  ⟨by decide, claim_c7 _ "Design" (by decide)⟩

/-- What the caller of `handleStartTimer` observes: nothing at all (the
guard returned early), success, the "timer already running" alert, or the
generic failure alert. -/
inductive StartSignal where
  | silent
  | started
  | conflict
  | failed
deriving DecidableEq, Repr

/-- What the caller of `handleStopTimer` observes. -/
inductive StopSignal where
  | silent
  | stopped
  | stopFailed
deriving DecidableEq, Repr

/-- A fresh open `subtask_time_logs` row as the insert payload creates it. -/
def freshEntry (entryId taskId userId subtaskName : String) (nowMs : Nat) : TimeLogEntry :=
  ⟨entryId, taskId, userId, subtaskName, nowMs, none, none⟩

/-- `handleStartTimer` (SubtaskTimer.tsx:98-140).  `transientFail` is a
non-conflict remote failure.  If the guard is already Running the source
returns silently (`if (!user || activeTimer) return`) without touching
anything.  Otherwise the insert is attempted: on a non-conflict failure the
guard stays Idle with the generic alert; when the store already holds an
open entry for this (task, user) the unique partial index rejects the
insert with 23505, the code alerts "timer already running" and re-queries
the open entry via `loadActiveTimer`, adopting it; otherwise the row is
created and the guard records the server id with the local start time. -/
def handleStartTimer (g : TimerGuardState) (store : List TimeLogEntry)
    (taskId userId subtaskName freshId : String) (nowMs : Nat) (transientFail : Bool) :
    TimerGuardState × List TimeLogEntry × StartSignal :=
  if g.activeTimer.isSome then (g, store, .silent)
  else if transientFail then (g, store, .failed)
  else if hasOpenEntry store taskId userId then
    (loadActiveTimer g store taskId userId nowMs, store, .conflict)
  else
    ({ activeTimer := some ⟨freshId, subtaskName, nowMs⟩, elapsedSeconds := 0 },
     store ++ [freshEntry freshId taskId userId subtaskName nowMs], .started)

/-- `handleStopTimer` (SubtaskTimer.tsx:142-170).  Without a running timer
the source returns silently.  Otherwise it computes the duration locally
from the tracked start time and issues the closing update on the tracked
id; on success it clears the local state and reloads (`loadActiveTimer`
finds no open entry once the tracked one is closed, provided it was the
only open one); on failure it only alerts, keeping guard and store as they
were. -/
def handleStopTimer (g : TimerGuardState) (store : List TimeLogEntry)
    (taskId userId : String) (nowMs : Nat) (remoteOk : Bool) :
    TimerGuardState × List TimeLogEntry × StopSignal :=
  match g.activeTimer with
  | none => (g, store, .silent)
  | some t =>
    if remoteOk then
      let durationSeconds := (nowMs - t.startTime) / 1000
      let store' := closeTimeLog store t.id nowMs durationSeconds
      (loadActiveTimer { activeTimer := none, elapsedSeconds := 0 } store' taskId userId nowMs,
       store', .stopped)
    else (g, store, .stopFailed)

/-- C3: from a Running guard, stop computes the duration locally from the
tracked start time, closes the tracked entry with `end_time = now` and that
duration; on remote success the guard is back to Idle with no local running
state, and on remote failure guard and store are exactly as before with the
failure reported.  Concretely, `start("Design")` followed by `stop()` 65
elapsed seconds later leaves one closed entry with `duration_seconds = 65`
and the guard Idle.  (The success conjunct assumes the store invariant that
the tracked entry is the only open one for this (task, user), which the
partial unique index enforces.) -/
theorem claim_c3 :
    (∀ (g : TimerGuardState) (store : List TimeLogEntry) (taskId userId : String)
        (nowMs : Nat) (t : ActiveTimer),
        g.activeTimer = some t →
        (∀ e ∈ store, e.task_id = taskId → e.user_id = userId → e.end_time = none →
          e.id = t.id) →
        (handleStopTimer g store taskId userId nowMs true).2.1 =
            closeTimeLog store t.id nowMs ((nowMs - t.startTime) / 1000)
          ∧ (∀ e ∈ (handleStopTimer g store taskId userId nowMs true).2.1,
              e.id = t.id →
              e.end_time = some nowMs
                ∧ e.duration_seconds = some ((nowMs - t.startTime) / 1000))
          ∧ (handleStopTimer g store taskId userId nowMs true).1 =
              { activeTimer := none, elapsedSeconds := 0 })
    ∧ (∀ (g : TimerGuardState) (store : List TimeLogEntry) (taskId userId : String)
        (nowMs : Nat) (t : ActiveTimer),
        g.activeTimer = some t →
        handleStopTimer g store taskId userId nowMs false = (g, store, .stopFailed))
    ∧ handleStartTimer ⟨none, 0⟩ [] "T" "U" "Design" "e1" 1000 false =
        (⟨some ⟨"e1", "Design", 1000⟩, 0⟩, [freshEntry "e1" "T" "U" "Design" 1000], .started)
    ∧ handleStopTimer ⟨some ⟨"e1", "Design", 1000⟩, 0⟩ [freshEntry "e1" "T" "U" "Design" 1000]
        "T" "U" 66000 true =
        (⟨none, 0⟩, [⟨"e1", "T", "U", "Design", 1000, some 66000, some 65⟩], .stopped) := by
  refine ⟨?_, ?_, by decide, by decide⟩
  · intro g store taskId userId nowMs t hg hinv
    have hstop : handleStopTimer g store taskId userId nowMs true =
        (loadActiveTimer ⟨none, 0⟩
            (closeTimeLog store t.id nowMs ((nowMs - t.startTime) / 1000)) taskId userId nowMs,
         closeTimeLog store t.id nowMs ((nowMs - t.startTime) / 1000), .stopped) := by
      simp only [handleStopTimer, hg]
      rw [if_pos trivial]
    rw [hstop]
    refine ⟨rfl, ?_, ?_⟩
    · intro e he heid
      rw [closeTimeLog] at he
      rcases List.mem_map.mp he with ⟨a, ha, rfl⟩
      by_cases hid : a.id = t.id
      · rw [if_pos hid]
        exact ⟨rfl, rfl⟩
      · rw [if_neg hid] at heid ⊢
        exact absurd heid hid
    · have hnone : findOpenTimeLog
          (closeTimeLog store t.id nowMs ((nowMs - t.startTime) / 1000)) taskId userId = none := by
        rw [findOpenTimeLog, List.find?_eq_none]
        intro e he
        rw [closeTimeLog] at he
        rcases List.mem_map.mp he with ⟨a, ha, rfl⟩
        by_cases hid : a.id = t.id
        · rw [if_pos hid]
          simp
        · rw [if_neg hid]
          simp only [decide_eq_true_eq, not_and]
          intro h1 h2 h3
          exact absurd (hinv a ha h1 h2 h3) hid
      show loadActiveTimer ⟨none, 0⟩ _ taskId userId nowMs = _
      rw [loadActiveTimer, hnone]
  · intro g store taskId userId nowMs t hg
    simp only [handleStopTimer, hg]
    rfl

/-- Witness for C3: the failure conjunct applied to a concrete Running guard
over a one-entry store. -/
theorem claim_c3_witness :
    handleStopTimer ⟨some ⟨"e1", "Design", 1000⟩, 65⟩
        [⟨"e1", "T", "U", "Design", 1000, none, none⟩] "T" "U" 66000 false =
      (⟨some ⟨"e1", "Design", 1000⟩, 65⟩,
       [⟨"e1", "T", "U", "Design", 1000, none, none⟩], .stopFailed) :=
  claim_c3.2.1 ⟨some ⟨"e1", "Design", 1000⟩, 65⟩
    [⟨"e1", "T", "U", "Design", 1000, none, none⟩] "T" "U" 66000 ⟨"e1", "Design", 1000⟩ rfl

/-- The first of two consecutive `start` calls for the same (task, user),
from Idle over an empty store. -/
def startOnce : TimerGuardState × List TimeLogEntry × StartSignal :=
  handleStartTimer ⟨none, 0⟩ [] "T" "U" "Design" "e1" 1000 false

/-- C4, counterexample: the second of two `start()` calls on the same
(task, user) does not receive a Conflict signal — the client-side guard
(`if (!user || activeTimer) return`) returns silently, with no alert at
all. -/
theorem claim_c4_cex :
    ¬ ((handleStartTimer startOnce.1 startOnce.2.1 "T" "U" "Design" "e2" 2000 false).2.2 =
        StartSignal.conflict) := by
  decide

/-- C4 (amended): a second `start()` for the same (task, user) never creates
a second open entry and leaves the guard Running on the first (or
store-resolved) entry; but the caller is signalled Conflict only when the
attempt reaches the store and its uniqueness constraint rejects it — a call
blocked by the local guard (already Running) returns silently with no
signal.  On a store-side uniqueness rejection the guard does not fabricate
local Running state: it re-queries the open entry and adopts it as the
authoritative Running state. -/
theorem claim_c4 :
    (∀ (g : TimerGuardState) (store : List TimeLogEntry)
        (taskId userId subtaskName freshId : String) (nowMs : Nat) (transientFail : Bool)
        (t : ActiveTimer),
        g.activeTimer = some t →
        handleStartTimer g store taskId userId subtaskName freshId nowMs transientFail =
          (g, store, .silent))
    ∧ (∀ (g : TimerGuardState) (store : List TimeLogEntry)
        (taskId userId subtaskName freshId : String) (nowMs : Nat) (e : TimeLogEntry),
        g.activeTimer = none →
        findOpenTimeLog store taskId userId = some e →
        handleStartTimer g store taskId userId subtaskName freshId nowMs false =
          ({ activeTimer := some ⟨e.id, e.subtask_name, e.start_time⟩,
             elapsedSeconds := (nowMs - e.start_time) / 1000 }, store, .conflict))
    ∧ (startOnce.2.1 = [freshEntry "e1" "T" "U" "Design" 1000]
        ∧ startOnce.1.activeTimer = some ⟨"e1", "Design", 1000⟩
        ∧ handleStartTimer startOnce.1 startOnce.2.1 "T" "U" "Design" "e2" 2000 false =
            (startOnce.1, startOnce.2.1, .silent)) := by
  refine ⟨?_, ?_, by decide, by decide, by decide⟩
  · intro g store taskId userId subtaskName freshId nowMs transientFail t hg
    rw [handleStartTimer, if_pos (by rw [hg]; rfl)]
  · intro g store taskId userId subtaskName freshId nowMs e hg hfind
    rw [handleStartTimer, if_neg (by rw [hg]; simp), if_neg (by simp),
      if_pos (by rw [hasOpenEntry, hfind]; rfl)]
    rw [loadActiveTimer, hfind]

/-- Witness for C4: the store-side-conflict conjunct applied to an Idle
guard over a store that already holds an open entry for this (task, user):
the guard adopts entry "x9" and the caller is signalled Conflict. -/
theorem claim_c4_witness :
    handleStartTimer ⟨none, 0⟩ [⟨"x9", "T", "U", "Design", 500, none, none⟩]
        "T" "U" "Design" "e2" 2000 false =
      (⟨some ⟨"x9", "Design", 500⟩, 1⟩,
       [⟨"x9", "T", "U", "Design", 500, none, none⟩], .conflict) :=
  claim_c4.2.1 ⟨none, 0⟩ [⟨"x9", "T", "U", "Design", 500, none, none⟩]
    "T" "U" "Design" "e2" 2000 ⟨"x9", "T", "U", "Design", 500, none, none⟩ rfl (by decide)
